import Mathlib

/-!
Verification of the geforcedrvchk3 driver-update checker.

The Rust sources (src/main.rs, src/lib.rs) are embedded shallowly:
pure logic becomes Lean functions; effects (network fetch, process
execution, console input, process exit) become explicit parameters or
outcome constructors.  Rust f64 parsing of version strings is modelled
as exact decimal rationals: every version string the pipeline handles
has the short form digits.digits, where the decimal value determines
the double and its ordering.
-/

namespace Chk

/-- Numeric value of a digit list read left to right, as by an
accumulating fold (models the integer part of Rust float parsing). -/
def digitsToNat (ds : List Char) : Nat :=
  ds.foldl (fun acc c => acc * 10 + (c.toNat - 48)) 0

/-- Models `s.parse::<f64>()` from main.rs lines 29-30, restricted to the
unsigned decimal literals `digits` and `digits.digits` that version
strings take; the parsed double is idealized as the exact decimal
rational.  Other f64 syntaxes (signs, exponents, infinities) never
arise from this pipeline and are mapped to `none` like any other
non-version string. -/
def parse_f64 (s : String) : Option ℚ :=
  let intDs := s.data.takeWhile Char.isDigit
  let rest := s.data.dropWhile Char.isDigit
  if intDs.isEmpty then none
  else
    match rest with
    | [] => some (digitsToNat intDs)
    | '.' :: frac =>
        if frac.isEmpty then none
        else if frac.all Char.isDigit then
          some ((digitsToNat intDs : ℚ) + (digitsToNat frac : ℚ) / 10 ^ frac.length)
        else none
    | _ => none

/-- The conversion-and-comparison step of main.rs lines 29-37: parse both
version strings as doubles and report whether `instd_ver < avail_ver`
(the `Outdated` condition).  `none` models the case where either parse
fails and `handle_error` aborts the run. -/
def version_outdated (installed available : String) : Option Bool :=
  match parse_f64 installed, parse_f64 available with
  | some qi, some qa => some (decide (qi < qa))
  | _, _ => none

/-- Spec-side denotation of a `major.minor` decimal numeral: the claim
speaks of the numeric value of the string made of integer digits `a`,
a dot, and fraction digits `b`. -/
def decimalValue (a b : List Char) : ℚ :=
  (digitsToNat a : ℚ) + (digitsToNat b : ℚ) / 10 ^ b.length

/-- The action main.rs dispatches after the user answers the prompt
(lines 43-45): open the browser on the download URL, auto-install from
it, or quit without acting. -/
inductive Action where
  | start_browser (url : String)
  | auto_install (url : String)
  | quit
deriving DecidableEq

/-- Observable outcome of one run of `main`.  `aborted msg` models
`handle_error` printing `msg` and calling `std::process::exit(1)`
before anything further happens; `done prompted action` models a run
that reached the comparison, recording whether the confirmation prompt
was shown and which action (if any) was dispatched; `blocked` models
the prompt looping forever because no acceptable input line ever
arrives. -/
inductive RunOutcome where
  | aborted (msg : String)
  | done (prompted : Bool) (action : Option Action)
  | blocked
deriving DecidableEq

/-- Models `ask_confirmation` from lib.rs lines 128-154 as a function of
the successive input lines the user types (console printing elided).
Each iteration reads one line; the `input.trim().len() == 0` test is
rendered as all characters being whitespace, which selects the
default; otherwise the first character of the raw line is compared
case-insensitively against the option characters and the question is
repeated on no match.  `none` models the loop outrunning the supplied
lines, i.e. blocking forever. -/
def ask_confirmation (options : List Char) (default : Nat) :
    List String → Option Nat
  | [] => none
  | input :: rest =>
    if input.data.all Char.isWhitespace then some default
    else
      match input.data with
      | [] => some default
      | c :: _ =>
        match options.findIdx? (fun x => x.toLower = c.toLower) with
        | some v => some v
        | none => ask_confirmation options default rest

/-- Models `main` from main.rs lines 25-48.  The effectful inputs are
injected: `installedRes` is the result of `get_installed_version`,
`availableRes` the result of `get_available_version_information`, and
`inputs` the lines the user would type at the prompt.  Each
`handle_error` call that receives an `Err` becomes an `aborted`
outcome; otherwise the two version strings are parsed as doubles,
compared, and the dispatch of lines 37-47 is recorded. -/
def main (installedRes : Except String String)
    (availableRes : Except String (String × String))
    (inputs : List String) : RunOutcome :=
  match installedRes with
  | .error e => .aborted e
  | .ok installed =>
    match availableRes with
    | .error e => .aborted e
    | .ok available =>
      match parse_f64 installed with
      | none => .aborted "Cannot convert installed version number!"
      | some instd_ver =>
        match parse_f64 available.1 with
        | none => .aborted "Cannot convert available version number!"
        | some avail_ver =>
          let avail_url := available.2
          if instd_ver < avail_ver then
            match ask_confirmation ['d', 'a', 'q'] 0 inputs with
            | none => .blocked
            | some 0 => .done true (some (.start_browser avail_url))
            | some 1 => .done true (some (.auto_install avail_url))
            | some _ => .done true none
          else
            .done false none

/-- Result of locating nvidia-smi.  `panicked msg` models a Rust panic
raised by `.expect(msg)` on a missing environment variable, which
crashes the process instead of returning an `Err`. -/
inductive LocResult where
  | ok (path : String)
  | err (msg : String)
  | panicked (msg : String)
deriving DecidableEq

/-- Models `get_nvidia_smi_location` from lib.rs lines 80-100.  The
environment and the filesystem are injected: `envVar` models
`env::var` (with `none` for an absent variable) and `pathExists`
models `Path::exists`.  Path joins are rendered with the backslash
separator the Windows `PathBuf` uses.  Note the source reads `windir`
eagerly with `.expect`, and reads `ProgramFiles` (again with
`.expect`) only when the System32 candidate does not exist. -/
def get_nvidia_smi_location (envVar : String → Option String)
    (pathExists : String → Bool) (executable_name : String) : LocResult :=
  match envVar "windir" with
  | none => .panicked "Environment variable 'windir' not found!"
  | some windir =>
    let nvidiasmi := windir ++ "\\System32\\" ++ executable_name
    if pathExists nvidiasmi = false then
      match envVar "ProgramFiles" with
      | none => .panicked "Environment variable 'ProgramFiles' not found!"
      | some programFiles =>
        let nvidiasmiOld :=
          programFiles ++ "\\NVIDIA Corporation\\NVSMI\\" ++ executable_name
        if pathExists nvidiasmiOld = false then
          .err "Couldn't detect location for nvidia-smi. Maybe the driver is not installed?"
        else
          .ok nvidiasmiOld
    else
      .ok nvidiasmi

/-! ## JSON model

The `json` crate used by lib.rs is modelled by a JSON value type, an
executable parser, and the indexing operators the source applies to
the parsed document.  Member lists keep document order; numbers are
kept as raw text since the pipeline never reads a numeric value.  The
parser accepts the JSON the crate accepts on the shapes this pipeline
meets (it does not implement the \u escape and is lax about number
syntax, neither of which arises here). -/

inductive Json where
  | null
  | bool (b : Bool)
  | num (raw : String)
  | str (s : String)
  | arr (items : List Json)
  | obj (members : List (String × Json))

/-- Whitespace skipped between JSON tokens. -/
def jsonWs (c : Char) : Bool :=
  c = ' ' ∨ c = '\t' ∨ c = '\n' ∨ c = '\r'

def skipWs (cs : List Char) : List Char := cs.dropWhile jsonWs

/-- Consume an expected literal tail, returning the remaining input. -/
def dropLit : List Char → List Char → Option (List Char)
  | [], cs => some cs
  | _ :: _, [] => none
  | l :: ls, c :: cs => if c = l then dropLit ls cs else none

/-- Translation of a backslash escape inside a JSON string. -/
def escChar : Char → Option Char
  | '"' => some '"'
  | '\\' => some '\\'
  | '/' => some '/'
  | 'b' => some (Char.ofNat 8)
  | 'f' => some (Char.ofNat 12)
  | 'n' => some '\n'
  | 'r' => some '\r'
  | 't' => some '\t'
  | _ => none

/-- Body of a JSON string after the opening quote: returns the decoded
characters and the input past the closing quote. -/
def parseStringBody : List Char → Option (List Char × List Char)
  | [] => none
  | '"' :: rest => some ([], rest)
  | '\\' :: e :: rest =>
    match escChar e, parseStringBody rest with
    | some c, some (s, r) => some (c :: s, r)
    | _, _ => none
  | c :: rest =>
    match parseStringBody rest with
    | some (s, r) => some (c :: s, r)
    | none => none

/-- Characters a JSON numeric token may contain. -/
def numChar (c : Char) : Bool :=
  c.isDigit ∨ c = '-' ∨ c = '+' ∨ c = '.' ∨ c = 'e' ∨ c = 'E'

mutual

/-- One JSON value and the remaining input; `fuel` bounds recursion
depth and is chosen large enough for the whole input at top level. -/
def parseValue : Nat → List Char → Option (Json × List Char)
  | 0, _ => none
  | fuel + 1, cs =>
    match skipWs cs with
    | [] => none
    | c :: rest =>
      if c = '"' then
        match parseStringBody rest with
        | some (s, r) => some (.str (String.mk s), r)
        | none => none
      else if c = '{' then
        match skipWs rest with
        | '}' :: r => some (.obj [], r)
        | r =>
          match parseMembers fuel r with
          | some (ms, r2) => some (.obj ms, r2)
          | none => none
      else if c = '[' then
        match skipWs rest with
        | ']' :: r => some (.arr [], r)
        | r =>
          match parseItems fuel r with
          | some (vs, r2) => some (.arr vs, r2)
          | none => none
      else if c = 't' then
        match dropLit ['r', 'u', 'e'] rest with
        | some r => some (.bool true, r)
        | none => none
      else if c = 'f' then
        match dropLit ['a', 'l', 's', 'e'] rest with
        | some r => some (.bool false, r)
        | none => none
      else if c = 'n' then
        match dropLit ['u', 'l', 'l'] rest with
        | some r => some (.null, r)
        | none => none
      else if c.isDigit ∨ c = '-' then
        some (.num (String.mk ((c :: rest).takeWhile numChar)),
              (c :: rest).dropWhile numChar)
      else none

/-- Nonempty comma-separated item list of an array, up to `]`. -/
def parseItems : Nat → List Char → Option (List Json × List Char)
  | 0, _ => none
  | fuel + 1, cs =>
    match parseValue fuel cs with
    | none => none
    | some (v, rest) =>
      match skipWs rest with
      | ',' :: r =>
        match parseItems fuel r with
        | some (vs, r2) => some (v :: vs, r2)
        | none => none
      | ']' :: r => some ([v], r)
      | _ => none

/-- Nonempty comma-separated member list of an object, up to `}`. -/
def parseMembers : Nat → List Char → Option (List (String × Json) × List Char)
  | 0, _ => none
  | fuel + 1, cs =>
    match skipWs cs with
    | '"' :: r1 =>
      match parseStringBody r1 with
      | none => none
      | some (key, r2) =>
        match skipWs r2 with
        | ':' :: r3 =>
          match parseValue fuel r3 with
          | none => none
          | some (v, r4) =>
            match skipWs r4 with
            | ',' :: r5 =>
              match parseMembers fuel r5 with
              | some (ms, r6) => some ((String.mk key, v) :: ms, r6)
              | none => none
            | '}' :: r5 => some ([(String.mk key, v)], r5)
            | _ => none
        | _ => none
    | _ => none

end

/-- Models `json::parse`: a full document is one value with only
whitespace after it; anything else is a parse failure. -/
def jsonParse (s : String) : Option Json :=
  match parseValue (2 * s.length + 2) s.data with
  | some (v, rest) => if skipWs rest = [] then some v else none
  | none => none

/-- The `value["key"]` operator of the json crate: a member lookup on an
object, and `null` on a missing key or any non-object. -/
def Json.getField : Json → String → Json
  | .obj members, key => (members.lookup key).getD .null
  | _, _ => .null

/-- The `value[i]` operator of the json crate: element access on an
array, and `null` when out of range or applied to a non-array. -/
def Json.getIdx : Json → Nat → Json
  | .arr items, i => items.getD i .null
  | _, _ => .null

/-- The `as_str` accessor: the text of a string value, `none` for every
other kind of value (including `null` from a failed lookup). -/
def Json.as_str : Json → Option String
  | .str s => some s
  | _ => none

/-- The fixed vendor query endpoint from lib.rs line 21. -/
def NVIDIA_URL : String :=
  "https://gfwsl.geforce.com/services_toolkit/services/com/nvidia/services/AjaxDriverService.php?func=DriverManualLookup&psid=101&pfid=859&osID=57&languageCode=1033&beta=0&isWHQL=0&dltype=-1&dch=1&upCRD=0&qnf=0&sort1=0&numberOfResults=10"

/-- Models `get_available_version_information` from lib.rs lines 54-62:
fetch the fixed URL through the injected `get_page`, parse the payload
as JSON, navigate `IDS[0].downloadInfo` and read the `Version` and
`DownloadURL` string fields, failing with the source error messages at
each step. -/
def get_available_version_information
    (get_page : String → Except String String) :
    Except String (String × String) :=
  match get_page NVIDIA_URL with
  | .error e => .error e
  | .ok page =>
    match jsonParse page with
    | none => .error "Incorrect information at the online resource!"
    | some data =>
      let json_version :=
        (((data.getField "IDS").getIdx 0).getField "downloadInfo").getField "Version"
      let json_url :=
        (((data.getField "IDS").getIdx 0).getField "downloadInfo").getField "DownloadURL"
      match json_version.as_str with
      | none => .error "Cannot find version information from the online resource!"
      | some version =>
        match json_url.as_str with
        | none => .error "Cannot find download URL information from the online resource!"
        | some url => .ok (version, url)

/-! ## Local probe model

The regex `Driver Version: ([0-9]+\.[0-9]+)` of lib.rs line 73 is
modelled by an anchored matcher and a leftmost-first scan.  For this
pattern greedy maximal munch coincides with the backtracking
semantics: a shorter digit run would leave a digit where `\.` or the
end of the pattern is required, so no backtracking can succeed where
maximal munch fails. -/

/-- The literal part of the probe regex. -/
def driverVersionLit : List Char := "Driver Version: ".data

/-- Anchored match of the probe regex at the head of `cs`: the capture
group (digits, dot, digits) when the pattern matches here. -/
def matchAt (cs : List Char) : Option (List Char) :=
  match dropLit driverVersionLit cs with
  | none => none
  | some rest =>
    if (rest.takeWhile Char.isDigit).isEmpty then none
    else
      match rest.dropWhile Char.isDigit with
      | x :: r2 =>
        if x = '.' then
          if (r2.takeWhile Char.isDigit).isEmpty then none
          else some (rest.takeWhile Char.isDigit ++ '.' :: r2.takeWhile Char.isDigit)
        else none
      | [] => none

/-- The `Regex::captures` search: try the anchored match at each
position from the left and return the first capture. -/
def firstCapture : List Char → Option (List Char)
  | [] => none
  | c :: cs =>
    match matchAt (c :: cs) with
    | some v => some v
    | none => firstCapture cs

/-- Models `get_installed_version` from lib.rs lines 70-77.  The
effectful first half is injected: `runResult` is either an error from
locating the tool (line 71) or from starting it (line 72), or the
lossily UTF-8-decoded standard output of the tool (line 74).  The pure
second half applies the version regex to that text and returns the
first capture group, or the pattern-not-found error. -/
def get_installed_version (runResult : Except String String) :
    Except String String :=
  match runResult with
  | .error e => .error e
  | .ok nvsmi =>
    match firstCapture nvsmi.data with
    | some v => .ok (String.mk v)
    | none => .error "Cannot find installed version information!"

/-! ## Lemmas about decimal version parsing -/

theorem takeWhile_digits_dot (a b : List Char) (hda : ∀ c ∈ a, c.isDigit) :
    (a ++ '.' :: b).takeWhile Char.isDigit = a := by
  induction a with
  | nil => simp [List.takeWhile]
  | cons c cs ih =>
      have hc : c.isDigit := hda c (by simp)
      simp only [List.cons_append, List.takeWhile_cons, hc, if_pos]
      rw [ih (fun x hx => hda x (by simp [hx]))]

theorem dropWhile_digits_dot (a b : List Char) (hda : ∀ c ∈ a, c.isDigit) :
    (a ++ '.' :: b).dropWhile Char.isDigit = '.' :: b := by
  induction a with
  | nil => simp [List.dropWhile]
  | cons c cs ih =>
      have hc : c.isDigit := hda c (by simp)
      simp only [List.cons_append, List.dropWhile_cons, hc, if_pos]
      exact ih (fun x hx => hda x (by simp [hx]))

theorem parse_f64_decimal (a b : List Char) (ha : a ≠ []) (hb : b ≠ [])
    (hda : ∀ c ∈ a, c.isDigit) (hdb : ∀ c ∈ b, c.isDigit) :
    parse_f64 (String.mk (a ++ '.' :: b)) = some (decimalValue a b) := by
  unfold parse_f64
  simp only [takeWhile_digits_dot a b hda, dropWhile_digits_dot a b hda]
  rw [if_neg (by simpa [List.isEmpty_iff] using ha)]
  rw [if_neg (by simpa [List.isEmpty_iff] using hb)]
  rw [if_pos (by simpa [List.all_eq_true] using hdb)]
  rfl

/-! ## Lemmas about the probe scan -/

theorem matchAt_nil : matchAt [] = none := rfl

/-- The scan returns `none` exactly when the anchored matcher fails at
every position. -/
theorem firstCapture_eq_none_iff (cs : List Char) :
    firstCapture cs = none ↔ ∀ i, matchAt (cs.drop i) = none := by
  induction cs with
  | nil =>
      constructor
      · intro _ i
        rw [List.drop_nil]
        exact matchAt_nil
      · intro _
        rfl
  | cons c cs ih =>
      cases h : matchAt (c :: cs) with
      | some v =>
          simp only [firstCapture, h]
          constructor
          · intro hco; cases hco
          · intro H
            have h0 := H 0
            rw [List.drop_zero, h] at h0
            cases h0
      | none =>
          simp only [firstCapture, h]
          rw [ih]
          constructor
          · intro H i
            cases i with
            | zero => rw [List.drop_zero]; exact h
            | succ j => rw [List.drop_succ_cons]; exact H j
          · intro H j
            have := H (j + 1)
            rwa [List.drop_succ_cons] at this

/-- The scan returns the capture of the leftmost position where the
anchored matcher succeeds. -/
theorem firstCapture_eq_some_iff (cs v : List Char) :
    firstCapture cs = some v ↔
      ∃ i, matchAt (cs.drop i) = some v ∧ ∀ j, j < i → matchAt (cs.drop j) = none := by
  induction cs generalizing v with
  | nil =>
      constructor
      · intro h
        simp [firstCapture] at h
      · rintro ⟨i, hi, -⟩
        rw [List.drop_nil, matchAt_nil] at hi
        cases hi
  | cons c cs ih =>
      cases h : matchAt (c :: cs) with
      | some w =>
          simp only [firstCapture, h]
          constructor
          · intro hv
            refine ⟨0, ?_, ?_⟩
            · rw [List.drop_zero, h]; exact hv
            · intro j hj; cases hj
          · rintro ⟨i, hi, hmin⟩
            cases i with
            | zero => rw [List.drop_zero, h] at hi; exact hi
            | succ j =>
                have h0 := hmin 0 (Nat.succ_pos j)
                rw [List.drop_zero, h] at h0
                cases h0
      | none =>
          simp only [firstCapture, h]
          rw [ih]
          constructor
          · rintro ⟨i, hi, hmin⟩
            refine ⟨i + 1, ?_, ?_⟩
            · rwa [List.drop_succ_cons]
            · intro j hj
              cases j with
              | zero => rw [List.drop_zero]; exact h
              | succ j' =>
                  rw [List.drop_succ_cons]
                  exact hmin j' (Nat.lt_of_succ_lt_succ hj)
          · rintro ⟨i, hi, hmin⟩
            cases i with
            | zero => rw [List.drop_zero, h] at hi; cases hi
            | succ j =>
                refine ⟨j, ?_, ?_⟩
                · rwa [List.drop_succ_cons] at hi
                · intro k hk
                  have := hmin (k + 1) (Nat.succ_lt_succ hk)
                  rwa [List.drop_succ_cons] at this

/-- Any capture the anchored matcher produces is a nonempty digit run,
a dot, and a nonempty digit run. -/
theorem matchAt_shape (cs v : List Char) (h : matchAt cs = some v) :
    ∃ d1 d2, v = d1 ++ '.' :: d2 ∧ d1 ≠ [] ∧ d2 ≠ [] ∧
      (∀ c ∈ d1, c.isDigit) ∧ (∀ c ∈ d2, c.isDigit) := by
  unfold matchAt at h
  cases hdl : dropLit driverVersionLit cs with
  | none => rw [hdl] at h; cases h
  | some rest =>
      rw [hdl] at h
      simp only at h
      by_cases h1 : (rest.takeWhile Char.isDigit).isEmpty
      · rw [if_pos h1] at h; cases h
      · rw [if_neg h1] at h
        cases hr : rest.dropWhile Char.isDigit with
        | nil => rw [hr] at h; cases h
        | cons x r2 =>
            rw [hr] at h
            simp only at h
            by_cases hx : x = '.'
            · rw [if_pos hx] at h
              by_cases h2 : (r2.takeWhile Char.isDigit).isEmpty
              · rw [if_pos h2] at h; cases h
              · rw [if_neg h2] at h
                refine ⟨rest.takeWhile Char.isDigit, r2.takeWhile Char.isDigit,
                  ?_, ?_, ?_, ?_, ?_⟩
                · cases h; rfl
                · simpa [List.isEmpty_iff] using h1
                · simpa [List.isEmpty_iff] using h2
                · intro c hc; exact List.mem_takeWhile_imp hc
                · intro c hc; exact List.mem_takeWhile_imp hc
            · rw [if_neg hx] at h; cases h

/-! ## Lemmas about the confirmation prompt -/

/-- Any index the prompt loop returns is in range, provided the default
is. -/
theorem ask_confirmation_lt (options : List Char) (default : Nat)
    (hd : default < options.length) (inputs : List String) (r : Nat)
    (h : ask_confirmation options default inputs = some r) :
    r < options.length := by
  induction inputs generalizing r with
  | nil => cases h
  | cons input rest ih =>
      unfold ask_confirmation at h
      split at h
      · cases h; exact hd
      · split at h
        · cases h; exact hd
        · split at h
          · cases h
            rename_i val hfind
            exact (List.findIdx?_eq_some_iff_getElem.mp hfind).1
          · exact ih r h

/-! ## Claims -/

/-- C1: for all version strings that parse as major.minor decimal
numbers, the comparison reports Outdated exactly when the numeric
value of the installed string is strictly below that of the available
string; in particular comparing 123.45 with itself is not Outdated,
123.44 against 123.45 is Outdated, and 123.45 against 123.44 is
not. -/
theorem claim_C1_outdated_iff_lt :
    (∀ a b c d : List Char, a ≠ [] → b ≠ [] → c ≠ [] → d ≠ [] →
      (∀ x ∈ a, x.isDigit) → (∀ x ∈ b, x.isDigit) →
      (∀ x ∈ c, x.isDigit) → (∀ x ∈ d, x.isDigit) →
      (version_outdated (String.mk (a ++ '.' :: b)) (String.mk (c ++ '.' :: d)) =
          some true ↔
        decimalValue a b < decimalValue c d))
    ∧ version_outdated "123.45" "123.45" = some false
    ∧ version_outdated "123.44" "123.45" = some true
    ∧ version_outdated "123.45" "123.44" = some false := by
  refine ⟨?_, ?_, ?_, ?_⟩
  · intro a b c d ha hb hc hd hda hdb hdc hdd
    unfold version_outdated
    rw [parse_f64_decimal a b ha hb hda hdb, parse_f64_decimal c d hc hd hdc hdd]
    simp [decide_eq_true_iff]
  · simp [version_outdated, parse_f64, digitsToNat]
  · simp [version_outdated, parse_f64, digitsToNat]
    norm_num
  · simp [version_outdated, parse_f64, digitsToNat]
    norm_num

/-- Witness for C1 at the concrete pair 551.10 against 551.23. -/
theorem claim_C1_outdated_iff_lt_witness :
    version_outdated (String.mk (['5', '5', '1'] ++ '.' :: ['1', '0']))
      (String.mk (['5', '5', '1'] ++ '.' :: ['2', '3'])) = some true := by
  have h := claim_C1_outdated_iff_lt.1 ['5', '5', '1'] ['1', '0'] ['5', '5', '1'] ['2', '3']
    (by decide) (by decide) (by decide) (by decide)
    (by decide) (by decide) (by decide) (by decide)
  refine h.mpr ?_
  unfold decimalValue
  rw [show digitsToNat ['5', '5', '1'] = 551 from rfl,
      show digitsToNat ['1', '0'] = 10 from rfl,
      show digitsToNat ['2', '3'] = 23 from rfl]
  norm_num

/-- C8: the numeric comparison cannot distinguish 551.100 from 551.1:
both parse to the same rational key, and comparing them in either
order is not Outdated. -/
theorem claim_C8_collapse_551_100 :
    parse_f64 "551.100" = parse_f64 "551.1"
    ∧ version_outdated "551.100" "551.1" = some false
    ∧ version_outdated "551.1" "551.100" = some false := by
  refine ⟨?_, ?_, ?_⟩
  · simp [parse_f64, digitsToNat]
    norm_num
  · simp [version_outdated, parse_f64, digitsToNat]
    norm_num
  · simp [version_outdated, parse_f64, digitsToNat]
    norm_num

/-- C5: the run aborts exactly when some pipeline step fails (installed
probe, remote fetch or extract, or numeric conversion of either
version string); equivalently, a non-aborted run means both versions
were obtained and parsed, so no partial-success state exists. -/
theorem claim_C5_abort_iff_failure (installedRes : Except String String)
    (availableRes : Except String (String × String)) (inputs : List String) :
    (∃ m, main installedRes availableRes inputs = .aborted m) ↔
      ¬ ∃ installed available qi qa,
        installedRes = .ok installed ∧ availableRes = .ok available ∧
        parse_f64 installed = some qi ∧ parse_f64 available.1 = some qa := by
  cases installedRes with
  | error e => simp [main]
  | ok installed =>
    cases availableRes with
    | error e => simp [main]
    | ok available =>
      cases hpi : parse_f64 installed with
      | none => simp [main, hpi]
      | some qi =>
        cases hpa : parse_f64 available.1 with
        | none => simp [main, hpi, hpa]
        | some qa =>
          simp only [main, hpi, hpa]
          constructor
          · rintro ⟨m, hm⟩
            by_cases hlt : qi < qa
            · rw [if_pos hlt] at hm
              cases hask : ask_confirmation ['d', 'a', 'q'] 0 inputs with
              | none => rw [hask] at hm; cases hm
              | some n =>
                  rw [hask] at hm
                  rcases n with _ | _ | n
                  · cases hm
                  · cases hm
                  · cases hm
            · rw [if_neg hlt] at hm; cases hm
          · intro hno
            exact (hno ⟨installed, available, qi, qa, rfl, rfl, hpi, hpa⟩).elim

/-- C6: when the comparison is not Outdated (installed at least the
available version), the dispatcher takes no action and no prompt is
shown. -/
theorem claim_C6_no_action_when_current (installed availVer url : String)
    (inputs : List String) (qi qa : ℚ)
    (hi : parse_f64 installed = some qi) (ha : parse_f64 availVer = some qa)
    (hge : ¬ qi < qa) :
    main (.ok installed) (.ok (availVer, url)) inputs = .done false none := by
  simp only [main, hi, ha]
  rw [if_neg hge]

/-- Witness for C6: installed 551.23 and available 551.23 give no
prompt and no action. -/
theorem claim_C6_no_action_when_current_witness :
    main (.ok "551.23") (.ok ("551.23", "https://example.com/x.exe")) [] =
      .done false none := by
  have hp : parse_f64 "551.23" = some (55123 / 100 : ℚ) := by
    simp [parse_f64, digitsToNat]
    norm_num
  exact claim_C6_no_action_when_current "551.23" "551.23"
    "https://example.com/x.exe" [] _ _ hp hp (lt_irrefl _)

/-- C4: on any captured tool output the probe returns the capture group
of the leftmost match of the driver-version pattern, and fails with
the pattern-not-found error exactly when the pattern matches nowhere;
in particular an output embedding Driver Version: 123.45 in noise
yields 123.45. -/
theorem claim_C4_first_capture :
    (∀ cs v : List Char,
      (get_installed_version (.ok (String.mk cs)) = .ok (String.mk v) ↔
        ∃ i, matchAt (cs.drop i) = some v ∧ ∀ j, j < i → matchAt (cs.drop j) = none)
      ∧ (get_installed_version (.ok (String.mk cs)) =
            .error "Cannot find installed version information!" ↔
          ∀ i, matchAt (cs.drop i) = none))
    ∧ get_installed_version
        (.ok "some noise Driver Version: 123.45 and more noise") = .ok "123.45" := by
  refine ⟨?_, by rfl⟩
  intro cs v
  constructor
  · rw [← firstCapture_eq_some_iff]
    unfold get_installed_version
    simp only [show (String.mk cs).data = cs from rfl]
    cases h : firstCapture cs with
    | some w =>
        simp only [h]
        constructor
        · intro he
          have hmk : String.mk w = String.mk v := by injection he
          exact congrArg (fun s => some (String.data s)) hmk
        · intro he
          have hwv : w = v := by injection he
          rw [hwv]
    | none => simp [h]
  · rw [← firstCapture_eq_none_iff]
    unfold get_installed_version
    simp only [show (String.mk cs).data = cs from rfl]
    cases h : firstCapture cs with
    | some w => simp [h]
    | none => simp [h]

/-- C9: every Ok value of the installed-version probe is a nonempty
digit run, a dot, and a nonempty digit run, and therefore parses as a
number, so the installed-version conversion error branch of main is
unreachable after a successful probe. -/
theorem claim_C9_probe_output_parses (runResult : Except String String) (v : String)
    (h : get_installed_version runResult = .ok v) :
    (∃ d1 d2, v.data = d1 ++ '.' :: d2 ∧ d1 ≠ [] ∧ d2 ≠ [] ∧
      (∀ c ∈ d1, c.isDigit) ∧ (∀ c ∈ d2, c.isDigit)) ∧
    ∃ q, parse_f64 v = some q := by
  cases runResult with
  | error e => cases h
  | ok nvsmi =>
      unfold get_installed_version at h
      simp only at h
      cases hf : firstCapture nvsmi.data with
      | none => rw [hf] at h; cases h
      | some w =>
          rw [hf] at h
          simp only at h
          have hv : String.mk w = v := by
            injection h
          obtain ⟨i, hi, -⟩ := (firstCapture_eq_some_iff nvsmi.data w).mp hf
          obtain ⟨d1, d2, hshape, h1, h2, hd1, hd2⟩ := matchAt_shape _ _ hi
          subst hv
          subst hshape
          refine ⟨⟨d1, d2, rfl, h1, h2, hd1, hd2⟩, decimalValue d1 d2, ?_⟩
          exact parse_f64_decimal d1 d2 h1 h2 hd1 hd2

/-- Witness for C9 at a concrete probe output. -/
theorem claim_C9_probe_output_parses_witness : ∃ q, parse_f64 "537.58" = some q :=
  (claim_C9_probe_output_parses (.ok "NVIDIA-SMI Driver Version: 537.58 CUDA") "537.58" rfl).2

/-- C7 counterexample: with the windir environment variable absent the
location probe panics (crashes) instead of returning an error result,
so the MissingEnvironment part of the claim fails as stated. -/
theorem claim_C7_counterexample :
    get_nvidia_smi_location (fun _ => none) (fun _ => false) "nvidia-smi.exe" =
      .panicked "Environment variable 'windir' not found!"
    ∧ ∀ m, get_nvidia_smi_location (fun _ => none) (fun _ => false) "nvidia-smi.exe" ≠
        .err m := by
  refine ⟨rfl, ?_⟩
  intro m hm
  rw [show get_nvidia_smi_location (fun _ => none) (fun _ => false) "nvidia-smi.exe" =
      .panicked "Environment variable 'windir' not found!" from rfl] at hm
  cases hm

/-- C7 amended: if both base-directory variables are present and
neither candidate path exists the probe returns the not-found error
result; a missing base-directory variable instead makes the probe
panic with the corresponding expect message (a crash, not an error
result). -/
theorem claim_C7_amended :
    (∀ envVar pathExists exe w p,
      envVar "windir" = some w → envVar "ProgramFiles" = some p →
      pathExists (w ++ "\\System32\\" ++ exe) = false →
      pathExists (p ++ "\\NVIDIA Corporation\\NVSMI\\" ++ exe) = false →
      get_nvidia_smi_location envVar pathExists exe =
        .err "Couldn't detect location for nvidia-smi. Maybe the driver is not installed?")
    ∧ (∀ envVar pathExists exe, envVar "windir" = none →
        get_nvidia_smi_location envVar pathExists exe =
          .panicked "Environment variable 'windir' not found!")
    ∧ (∀ envVar pathExists exe w, envVar "windir" = some w →
        pathExists (w ++ "\\System32\\" ++ exe) = false →
        envVar "ProgramFiles" = none →
        get_nvidia_smi_location envVar pathExists exe =
          .panicked "Environment variable 'ProgramFiles' not found!") := by
  refine ⟨?_, ?_, ?_⟩
  · intro envVar pathExists exe w p hw hp hnew hold
    simp only [get_nvidia_smi_location, hw, hp, hnew, hold]
    rfl
  · intro envVar pathExists exe hw
    simp only [get_nvidia_smi_location, hw]
  · intro envVar pathExists exe w hw hnew hp
    simp only [get_nvidia_smi_location, hw, hnew, hp]
    rfl

/-- Witness for the amended C7: a concrete environment with both
variables set and an empty filesystem yields the not-found error. -/
theorem claim_C7_amended_witness :
    get_nvidia_smi_location
      (fun name => if name = "windir" then some "C:\\Windows"
        else if name = "ProgramFiles" then some "C:\\Program Files" else none)
      (fun _ => false) "nvidia-smi.exe" =
      .err "Couldn't detect location for nvidia-smi. Maybe the driver is not installed?" := by
  exact claim_C7_amended.1
    (fun name => if name = "windir" then some "C:\\Windows"
      else if name = "ProgramFiles" then some "C:\\Program Files" else none)
    (fun _ => false) "nvidia-smi.exe" "C:\\Windows" "C:\\Program Files"
    (by simp) (by simp) rfl rfl

/-- C2: for every JSON payload whose IDS field is a list whose element 0
has a downloadInfo field with string fields Version V and DownloadURL
U, extraction through a fetch function returning that payload yields
exactly Ok (V, U). -/
theorem claim_C2_extract_exact (s : String) (j elem0 dInfo : Json)
    (restIds : List Json) (V U : String)
    (hparse : jsonParse s = some j)
    (hIds : j.getField "IDS" = .arr (elem0 :: restIds))
    (hInfo : elem0.getField "downloadInfo" = dInfo)
    (hV : dInfo.getField "Version" = .str V)
    (hU : dInfo.getField "DownloadURL" = .str U) :
    get_available_version_information (fun _ => .ok s) = .ok (V, U) := by
  unfold get_available_version_information
  simp only [hparse, Json.getIdx, hIds, List.getD_cons_zero, hInfo, hV, hU, Json.as_str]

set_option maxRecDepth 20000 in
/-- Witness for C2 at the concrete stub payload used by the library
tests. -/
theorem claim_C2_extract_exact_witness :
    get_available_version_information (fun _ =>
      .ok "\x7b \"Success\" : \"1\", \"IDS\" : [ \x7b \"downloadInfo\": \x7b \"Version\" : \"123.45\", \"DownloadURL\" : \"https://example.com/test.exe\" \x7d \x7d ] \x7d") =
      .ok ("123.45", "https://example.com/test.exe") := by
  exact claim_C2_extract_exact
    "\x7b \"Success\" : \"1\", \"IDS\" : [ \x7b \"downloadInfo\": \x7b \"Version\" : \"123.45\", \"DownloadURL\" : \"https://example.com/test.exe\" \x7d \x7d ] \x7d"
    (.obj [("Success", .str "1"),
           ("IDS", .arr [.obj [("downloadInfo",
              .obj [("Version", .str "123.45"),
                    ("DownloadURL", .str "https://example.com/test.exe")])]])])
    (.obj [("downloadInfo",
      .obj [("Version", .str "123.45"),
            ("DownloadURL", .str "https://example.com/test.exe")])])
    (.obj [("Version", .str "123.45"),
           ("DownloadURL", .str "https://example.com/test.exe")])
    [] "123.45" "https://example.com/test.exe"
    (by rfl) (by rfl) (by rfl) (by rfl) (by rfl)

/-- C3: a payload that does not parse as JSON fails with the malformed
JSON error; a parsed payload whose Version path is absent or not a
string fails with the version schema error, and one whose DownloadURL
path is absent or not a string fails with the URL schema error; a
successful extraction certifies both string fields, so the result is
all-or-nothing. -/
theorem claim_C3_error_cases (s : String) :
    (jsonParse s = none →
      get_available_version_information (fun _ => .ok s) =
        .error "Incorrect information at the online resource!")
    ∧ (∀ j, jsonParse s = some j →
        ((((j.getField "IDS").getIdx 0).getField "downloadInfo").getField
            "Version").as_str = none →
        get_available_version_information (fun _ => .ok s) =
          .error "Cannot find version information from the online resource!")
    ∧ (∀ j V, jsonParse s = some j →
        ((((j.getField "IDS").getIdx 0).getField "downloadInfo").getField
            "Version").as_str = some V →
        ((((j.getField "IDS").getIdx 0).getField "downloadInfo").getField
            "DownloadURL").as_str = none →
        get_available_version_information (fun _ => .ok s) =
          .error "Cannot find download URL information from the online resource!")
    ∧ (∀ V U, get_available_version_information (fun _ => .ok s) = .ok (V, U) →
        ∃ j, jsonParse s = some j ∧
          ((((j.getField "IDS").getIdx 0).getField "downloadInfo").getField
              "Version").as_str = some V ∧
          ((((j.getField "IDS").getIdx 0).getField "downloadInfo").getField
              "DownloadURL").as_str = some U) := by
  refine ⟨?_, ?_, ?_, ?_⟩
  · intro hnone
    unfold get_available_version_information
    simp only [hnone]
  · intro j hsome hver
    unfold get_available_version_information
    simp only [hsome, hver]
  · intro j V hsome hver hurl
    unfold get_available_version_information
    simp only [hsome, hver, hurl]
  · intro V U hok
    unfold get_available_version_information at hok
    simp only at hok
    cases hp : jsonParse s with
    | none => rw [hp] at hok; cases hok
    | some j =>
        rw [hp] at hok
        simp only at hok
        cases hv : ((((j.getField "IDS").getIdx 0).getField "downloadInfo").getField
            "Version").as_str with
        | none => rw [hv] at hok; cases hok
        | some V0 =>
            rw [hv] at hok
            simp only at hok
            cases hu : ((((j.getField "IDS").getIdx 0).getField "downloadInfo").getField
                "DownloadURL").as_str with
            | none => rw [hu] at hok; cases hok
            | some U0 =>
                rw [hu] at hok
                simp only at hok
                have hVU : V0 = V ∧ U0 = U := by
                  have := hok
                  injection this with h1
                  exact ⟨congrArg Prod.fst h1, congrArg Prod.snd h1⟩
                exact ⟨j, rfl, hVU.1 ▸ hv, hVU.2 ▸ hu⟩

/-- Witness for C3: a non-JSON payload produces the malformed JSON
error. -/
theorem claim_C3_error_cases_witness :
    get_available_version_information (fun _ => .ok "this is not JSON") =
      .error "Incorrect information at the online resource!" :=
  (claim_C3_error_cases "this is not JSON").1 rfl

/-- C10: with a nonempty options list and an in-range default, every
index the prompt returns is in range; a first line of pure whitespace
returns the default, a first line whose first character matches an
option case-insensitively returns that option position, and a first
line matching no option returns nothing by itself, the loop moving on
to the remaining input. -/
theorem claim_C10_prompt_returns_valid_index (options : List Char) (default : Nat)
    (hne : options ≠ []) (hd : default < options.length) :
    (∀ inputs r, ask_confirmation options default inputs = some r →
      r < options.length)
    ∧ (∀ input rest, input.data.all Char.isWhitespace = true →
        ask_confirmation options default (input :: rest) = some default)
    ∧ (∀ input rest c cs i, input.data = c :: cs →
        input.data.all Char.isWhitespace = false →
        options.findIdx? (fun x => x.toLower = c.toLower) = some i →
        ask_confirmation options default (input :: rest) = some i)
    ∧ (∀ input rest c cs, input.data = c :: cs →
        input.data.all Char.isWhitespace = false →
        options.findIdx? (fun x => x.toLower = c.toLower) = none →
        ask_confirmation options default (input :: rest) =
          ask_confirmation options default rest) := by
  refine ⟨fun inputs r h => ask_confirmation_lt options default hd inputs r h,
    ?_, ?_, ?_⟩
  · intro input rest hws
    unfold ask_confirmation
    rw [if_pos hws]
  · intro input rest c cs i hdata hws hfind
    unfold ask_confirmation
    rw [if_neg (by simp [hws])]
    simp only [hdata, hfind]
  · intro input rest c cs hdata hws hfind
    conv_lhs => rw [ask_confirmation]
    rw [if_neg (by simp [hws])]
    simp only [hdata, hfind]

/-- Witness for C10: options d, a, q with default 0; the line A selects
index 1 case-insensitively. -/
theorem claim_C10_prompt_returns_valid_index_witness :
    ask_confirmation ['d', 'a', 'q'] 0 ["A\n"] = some 1 := by
  exact (claim_C10_prompt_returns_valid_index ['d', 'a', 'q'] 0 (by decide)
    (by decide)).2.2.1 "A\n" [] 'A' ['\n'] 1 rfl (by decide) (by decide)

end Chk

